import Mathlib

/-!
Shallow embedding of `pyramid_ldap3/__init__.py`: the search-string
sanitizer (`escape_for_search`), the time-sliced query cache and query
execution (`_LDAPQuery.query_cache` / `_LDAPQuery.execute`, `_timeslice`),
and the connector operations (`Connector.authenticate`,
`Connector.user_groups`).  Machine time is modelled as `Nat`; the external
`ldap3` library (pooled search, direct bind, unbind) is modelled as oracle
fields of `ConnectionManager`; exceptions are modelled with `Except`; the
side effects relevant to the claims (cache reads/flushes/stores, backend
search calls, bind/unbind calls) are recorded in an explicit event trace.
-/

/-- An LDAP attribute dictionary: attribute name to sequence of values. -/
abbrev Attrs := List (String × List String)

/-- One low-level record of a search response: an optional distinguished
name (Python dict may lack the key, modelled as `Option`) and the
attribute dictionary. -/
structure Record where
  dn : Option String
  attributes : Attrs
  deriving DecidableEq, Repr

/-- The mapped result of a query: ordered `(dn, attributes)` pairs. -/
abbrev ResultSet := List (String × Attrs)

/-- A fully substituted cache key `(base_dn % kw, filter_tmpl % kw)`. -/
abbrev SearchKey := String × String

/-- `ldap3.core.exceptions.LDAPException`, reduced to its message. -/
abbrev LDAPError := String

/-- Association-list lookup, modelling Python `dict.get` /
`getattr(obj, name, None)`. -/
def alookup {α β : Type} [DecidableEq α] : List (α × β) → α → Option β
  | [], _ => none
  | (k, v) :: rest, key => if key = k then some v else alookup rest key

/-- Association-list update, modelling Python `d[k] = v` (replace in
place, else append like dict insertion order). -/
def ainsert {α β : Type} [DecidableEq α] (key : α) (val : β) :
    List (α × β) → List (α × β)
  | [] => [(key, val)]
  | (k, v) :: rest =>
    if k = key then (key, val) :: rest else (k, v) :: ainsert key val rest

/-- The module-level replacement table `_escape_for_search`. -/
def _escape_for_search : List (Char × String) :=
  [('*', "\\2A"), ('(', "\\28"), (')', "\\29"), ('\\', "\\5C"),
   ('\x00', "\\00")]

/-- The characters produced for one input character by
`_escape_for_search.get(c, c)`. -/
def escTok (c : Char) : List Char :=
  ((alookup _escape_for_search c).getD (String.mk [c])).data

/-- A Python value that is either `str` or `bytes` (`escape_for_search`
accepts both). Bytes are naturals below 256. -/
inductive PyStr where
  | txt (s : String)
  | bin (bs : List Nat)
  deriving DecidableEq, Repr

/-- Lowercase hex digit for `n < 16` (`'%02x'` uses lowercase). -/
def hexDigit (n : Nat) : Char :=
  if n < 10 then Char.ofNat (48 + n) else Char.ofNat (87 + n)

/-- The three characters produced for one byte by `'\\%02x' % b`
(faithful for `b < 256`, the range of Python byte values). -/
def hexTok (b : Nat) : List Char :=
  ['\\', hexDigit (b / 16), hexDigit (b % 16)]

/-- Modelled from the spec: strict UTF-8 decoding (`bytes.decode('utf-8')`
of the Python standard library, external to the repository).  Rejects
invalid start bytes, truncated sequences, bad continuation bytes, overlong
encodings, surrogates and code points above U+10FFFF, as CPython's strict
codec does. -/
def utf8Decode : List Nat → Option (List Char)
  | [] => some []
  | b :: rest =>
    if b < 0x80 then
      (utf8Decode rest).map (fun cs => Char.ofNat b :: cs)
    else if b < 0xC2 then none
    else if b < 0xE0 then
      match rest with
      | c1 :: rest2 =>
        if 0x80 ≤ c1 ∧ c1 < 0xC0 then
          (utf8Decode rest2).map
            (fun cs => Char.ofNat ((b - 0xC0) * 0x40 + (c1 - 0x80)) :: cs)
        else none
      | [] => none
    else if b < 0xF0 then
      match rest with
      | c1 :: c2 :: rest2 =>
        if (0x80 ≤ c1 ∧ c1 < 0xC0) ∧ (0x80 ≤ c2 ∧ c2 < 0xC0) then
          let code := (b - 0xE0) * 0x1000 + (c1 - 0x80) * 0x40 + (c2 - 0x80)
          if code < 0x800 ∨ (0xD800 ≤ code ∧ code < 0xE000) then none
          else (utf8Decode rest2).map (fun cs => Char.ofNat code :: cs)
        else none
      | _ => none
    else if b < 0xF5 then
      match rest with
      | c1 :: c2 :: c3 :: rest2 =>
        if (0x80 ≤ c1 ∧ c1 < 0xC0) ∧ (0x80 ≤ c2 ∧ c2 < 0xC0) ∧
            (0x80 ≤ c3 ∧ c3 < 0xC0) then
          let code := (b - 0xF0) * 0x40000 + (c1 - 0x80) * 0x1000 +
            (c2 - 0x80) * 0x40 + (c3 - 0x80)
          if code < 0x10000 ∨ 0x10FFFF < code then none
          else (utf8Decode rest2).map (fun cs => Char.ofNat code :: cs)
        else none
      | _ => none
    else none

/-- `escape_for_search(s)` (source lines 32-41): falsy input returned
unchanged; bytes are UTF-8 decoded, on failure every byte becomes a
two-hex-digit escape and that is returned immediately; otherwise each
character is replaced through the `_escape_for_search` table. -/
def escape_for_search : PyStr → PyStr
  | .txt s =>
    if s = "" then .txt s
    else .txt (String.mk (List.flatten (s.data.map escTok)))
  | .bin bs =>
    if bs = [] then .bin bs
    else
      match utf8Decode bs with
      | some cs => .txt (String.mk (List.flatten (cs.map escTok)))
      | none => .txt (String.mk (List.flatten (bs.map hexTok)))

/-- `escape_for_search` restricted to text input, as used by the
connector (its arguments are `str`). -/
def escapeS (s : String) : String :=
  match escape_for_search (.txt s) with
  | .txt t => t
  | .bin _ => s

/-- Helper for `%`-formatting: consume characters up to the closing
parenthesis of a `%(name)s` pattern, returning the name and the
remainder after the parenthesis. -/
def scanName : List Char → List Char × List Char
  | [] => ([], [])
  | c :: rest =>
    if c = ')' then ([], rest)
    else
      let p := scanName rest
      (c :: p.1, p.2)

theorem scanName_snd_length_le (l : List Char) :
    (scanName l).2.length ≤ l.length := by
  induction l with
  | nil => simp [scanName]
  | cons c rest ih =>
    by_cases h : c = ')'
    · subst h; simp [scanName]
    · simp only [scanName, if_neg h]
      exact Nat.le_succ_of_le ih

/-- Python `%`-formatting with a mapping, restricted to the `%(name)s`
patterns the repository uses (`base_dn % kw`, `filter_tmpl % kw`).
A missing key substitutes the empty string (Python would raise
`KeyError`; the connector always supplies the needed keys).  Malformed
patterns pass through (Python would raise `ValueError`; none occur in
the repository's templates). -/
def pyFormat (kw : List (String × String)) : List Char → List Char
  | [] => []
  | '%' :: '(' :: rest =>
    match h : (scanName rest).2 with
    | 's' :: rest2 =>
      ((alookup kw (String.mk (scanName rest).1)).getD "").data ++
        pyFormat kw rest2
    | _ => '%' :: '(' :: pyFormat kw rest
  | c :: rest => c :: pyFormat kw rest
termination_by l => l.length
decreasing_by
  · have h1 := scanName_snd_length_le rest
    rw [h] at h1
    simp only [List.length_cons] at h1 ⊢
    omega
  · simp only [List.length_cons]
    omega
  · simp only [List.length_cons]
    omega

/-- The observable side effects of one connector / query operation, in
order.  `timeslice p` records an evaluation of `_timeslice` with period
`p`; `searchCall` is a backend directory search; `bindCall`/`unbindCall`
are the direct (non-pooled) credential-check connection and its
release. -/
inductive Event where
  | timeslice (period : Nat)
  | cacheFlush
  | cacheHit (key : SearchKey)
  | searchCall (key : SearchKey)
  | cacheStore (key : SearchKey)
  | bindCall (dn pw : String)
  | unbindCall (dn : String)
  deriving DecidableEq, Repr

/-- The `ldap3`-facing surface of `ConnectionManager` (source lines
130-188), modelled as oracles for the external library: `searchResp` is
the pooled-connection `conn.search` + `conn.get_response` round trip for
a substituted `(base_dn, filter)` key (`.error` = `LDAPException` raised,
`.ok none` = `None` response); `bindConn` is the direct synchronous
connection constructor with `auto_bind=True` for a user DN and password
(`.error` = bind rejected); `unbindConn` is `conn.unbind()` on that
direct connection. -/
structure ConnectionManager where
  searchResp : SearchKey → Except LDAPError (Option (List Record))
  bindConn : String → String → Except LDAPError Unit
  unbindConn : String → Except LDAPError Unit

/-- `_LDAPQuery` (source lines 44-57): query definition plus mutable
cache state.  The cache dict is an association list from substituted
keys to result sets. -/
structure _LDAPQuery where
  base_dn : String
  filter_tmpl : String
  scope : Nat
  attributes : List String
  cache_period : Nat
  last_timeslice : Nat
  cache : List (SearchKey × ResultSet)
  deriving DecidableEq, Repr

/-- `_LDAPQuery.__init__`: `last_timeslice = 0`, `cache = {}`. -/
def mkLDAPQuery (base_dn filter_tmpl : String) (scope : Nat)
    (attributes : List String) (cache_period : Nat) : _LDAPQuery :=
  ⟨base_dn, filter_tmpl, scope, attributes, cache_period, 0, []⟩

/-- `_timeslice(period, when)` (source lines 104-107):
`when - (when % period)`. -/
def _timeslice (period when : Nat) : Nat :=
  when - when % period

/-- `_LDAPQuery.query_cache` (source lines 64-75): compute the current
timeslice; if it is strictly newer than the last one, dump the whole
cache and record the new timeslice; then look the key up in the
(possibly fresh) cache.  Returns the lookup result, the updated query
state and the trace. -/
def _LDAPQuery.query_cache (q : _LDAPQuery) (now : Nat)
    (cache_key : SearchKey) :
    Option ResultSet × _LDAPQuery × List Event :=
  let ts := _timeslice q.cache_period now
  if q.last_timeslice < ts then
    let q' := { q with cache := [], last_timeslice := ts }
    (alookup q'.cache cache_key, q', [.timeslice q.cache_period, .cacheFlush])
  else
    (alookup q.cache cache_key, q, [.timeslice q.cache_period])

/-- The substituted cache key
`(self.base_dn % kw, self.filter_tmpl % kw)` of source line 78. -/
def _LDAPQuery.cache_key (q : _LDAPQuery) (kw : List (String × String)) :
    SearchKey :=
  (String.mk (pyFormat kw q.base_dn.data),
   String.mk (pyFormat kw q.filter_tmpl.data))

/-- `_LDAPQuery.execute` (source lines 77-101): build the cache key by
`%`-substitution; consult the cache only when `cache_period` is truthy;
on a miss, run the backend search; a `None` response maps to `[]`, a
list response maps each record carrying a `'dn'` key to a
`(dn, attributes)` pair and is stored when `cache_period` is truthy.
A backend `LDAPException` propagates. -/
def _LDAPQuery.execute (q : _LDAPQuery) (manager : ConnectionManager)
    (now : Nat) (kw : List (String × String)) :
    Except LDAPError ResultSet × _LDAPQuery × List Event :=
  let cache_key : SearchKey := q.cache_key kw
  let pre :=
    if q.cache_period ≠ 0 then q.query_cache now cache_key
    else (none, q, [])
  let q1 := pre.2.1
  match pre.1 with
  | some result => (.ok result, q1, pre.2.2 ++ [.cacheHit cache_key])
  | none =>
    match manager.searchResp cache_key with
    | .error e => (.error e, q1, pre.2.2 ++ [.searchCall cache_key])
    | .ok resp =>
      match resp with
      | none => (.ok [], q1, pre.2.2 ++ [.searchCall cache_key])
      | some records =>
        let result := records.filterMap (fun r =>
          match r.dn with
          | some d => some (d, r.attributes)
          | none => none)
        if q.cache_period ≠ 0 then
          (.ok result, { q1 with cache := ainsert cache_key result q1.cache },
           pre.2.2 ++ [.searchCall cache_key, .cacheStore cache_key])
        else
          (.ok result, q1, pre.2.2 ++ [.searchCall cache_key])

/-- `_registry_identifier(base, realm)` (source lines 117-121): join
with an underscore when the realm is truthy (non-`None` and
non-empty). -/
def _registry_identifier (base : String) (realm : Option String) : String :=
  match realm with
  | some r => if r = "" then base else base ++ "_" ++ r
  | none => base

/-- The registry's dynamic attributes holding the registered queries,
keyed by `_registry_identifier` names. -/
abbrev Registry := List (String × _LDAPQuery)

/-- An error escaping a connector operation: `pyramid`'s
`ConfigurationError`, or a propagated `LDAPException`. -/
inductive ConnErr where
  | config (msg : String)
  | ldap (e : LDAPError)
  deriving DecidableEq, Repr

/-- `Connector.authenticate(login, password)` (source lines 201-248):
an empty password is rejected before anything else; the registered login
query is fetched from the registry (missing registration raises
`ConfigurationError`); the query is executed with the escaped login and
password; unless exactly one record matched, the result is `None`;
otherwise a fresh direct connection is bound as the matched DN with the
raw password and immediately released, any `LDAPException` there mapping
to `None`; on success the matched `(dn, attrs)` pair is returned.
State threading: the updated registry (with the mutated query object)
and the event trace are returned alongside the result. -/
def Connector.authenticate (reg : Registry) (mgr : ConnectionManager)
    (realm : Option String) (now : Nat) (login password : String) :
    Except ConnErr (Option (String × Attrs)) × Registry × List Event :=
  if password = "" then (.ok none, reg, [])
  else
    match alookup reg (_registry_identifier "ldap_login_query" realm) with
    | none =>
      (.error (.config "ldap_set_login_query was not called during setup"),
       reg, [])
    | some search =>
      let ex := search.execute mgr now
        [("login", escapeS login), ("password", escapeS password)]
      let reg' :=
        ainsert (_registry_identifier "ldap_login_query" realm) ex.2.1 reg
      match ex.1 with
      | .error e => (.error (.ldap e), reg', ex.2.2)
      | .ok result =>
        match result with
        | [] => (.ok none, reg', ex.2.2)
        | _ :: _ :: _ => (.ok none, reg', ex.2.2)
        | [(login_dn, attrs1)] =>
          match mgr.bindConn login_dn password with
          | .error _ =>
            (.ok none, reg', ex.2.2 ++ [.bindCall login_dn password])
          | .ok _ =>
            match mgr.unbindConn login_dn with
            | .error _ =>
              (.ok none, reg',
               ex.2.2 ++ [.bindCall login_dn password, .unbindCall login_dn])
            | .ok _ =>
              (.ok (some (login_dn, attrs1)), reg',
               ex.2.2 ++ [.bindCall login_dn password, .unbindCall login_dn])

/-- `Connector.user_groups(userdn)` (source lines 250-279): the
registered groups query is fetched from the registry (missing
registration raises `ConfigurationError`); the query is executed with
the escaped DN inside a `try`, an `LDAPException` mapping to `None`;
otherwise the query's result is returned unchanged. -/
def Connector.user_groups (reg : Registry) (mgr : ConnectionManager)
    (realm : Option String) (now : Nat) (userdn : String) :
    Except ConnErr (Option ResultSet) × Registry × List Event :=
  match alookup reg (_registry_identifier "ldap_groups_query" realm) with
  | none =>
    (.error (.config "set_ldap_groups_query was not called during setup"),
     reg, [])
  | some search =>
    let ex := search.execute mgr now [("userdn", escapeS userdn)]
    let reg' :=
      ainsert (_registry_identifier "ldap_groups_query" realm) ex.2.1 reg
    match ex.1 with
    | .error _ => (.ok none, reg', ex.2.2)
    | .ok result => (.ok (some result), reg', ex.2.2)

/-! ### Helper lemmas about the association-list dictionary model -/

theorem alookup_ainsert_self {α β : Type} [DecidableEq α] (k : α) (v : β)
    (m : List (α × β)) : alookup (ainsert k v m) k = some v := by
  induction m with
  | nil => simp [ainsert, alookup]
  | cons p rest ih =>
    obtain ⟨k', v'⟩ := p
    by_cases h : k' = k
    · subst h; simp [ainsert, alookup]
    · simp [ainsert, alookup, h, Ne.symm h, ih]

theorem alookup_nil {α β : Type} [DecidableEq α] (k : α) :
    alookup ([] : List (α × β)) k = none := rfl

/-- The mapping step of `execute` is filter-then-map: records lacking a
`'dn'` key are dropped, the rest are mapped in order. -/
theorem filterMap_dn_eq_filter_map (records : List Record) :
    (records.filterMap (fun r =>
      match r.dn with
      | some d => some (d, r.attributes)
      | none => none)) =
    ((records.filter (fun r => r.dn.isSome)).map
      (fun r => (r.dn.getD "", r.attributes))) := by
  induction records with
  | nil => rfl
  | cons r rest ih =>
    cases hd : r.dn <;>
      simp [List.filterMap_cons, List.filter_cons, hd, ih]

/-! ### Claim theorems -/

/-- C1: for every login value and every registry state (including one
where the login query was never registered), `authenticate(login, "")`
returns `None`, raises nothing, makes no backend call (empty trace) and
changes nothing: the empty-password check precedes every other step. -/
theorem authenticate_empty_password_no_match (reg : Registry)
    (mgr : ConnectionManager) (realm : Option String) (now : Nat)
    (login : String) :
    Connector.authenticate reg mgr realm now login "" =
      (.ok none, reg, []) := by
  simp [Connector.authenticate]

/-! ### Concrete fixtures used by witnesses -/

/-- A backend whose search yields one record and whose binds succeed. -/
def mgrOneMatch : ConnectionManager :=
  ⟨fun _ => .ok (some [⟨some "cn=bob,dc=ex", [("cn", ["bob"])]⟩]),
   fun _ _ => .ok (), fun _ => .ok ()⟩

/-- A backend whose search yields a `None` response. -/
def mgrNoneResp : ConnectionManager :=
  ⟨fun _ => .ok none, fun _ _ => .ok (), fun _ => .ok ()⟩

/-- A backend whose search raises `LDAPException`. -/
def mgrSearchErr : ConnectionManager :=
  ⟨fun _ => .error "search failed", fun _ _ => .ok (), fun _ => .ok ()⟩

/-- A backend with one match whose direct bind is rejected. -/
def mgrBadBind : ConnectionManager :=
  ⟨fun _ => .ok (some [⟨some "cn=bob,dc=ex", [("cn", ["bob"])]⟩]),
   fun _ _ => .error "invalidCredentials", fun _ => .ok ()⟩

/-- A registered query with caching disabled, for witnesses. -/
def qryNoCache : _LDAPQuery :=
  mkLDAPQuery "dc=ex" "(cn=%(login)s)" 0 [] 0

/-- C8: for every realm value (including the default unset realm) and
every registry state: if the realm's login query was never registered,
`authenticate` (with the non-empty password the login execution path
requires) raises `ConfigurationError`, never a null result — whatever
the groups registration; and if the realm's groups query was never
registered, `user_groups` raises `ConfigurationError` — whatever the
login registration.  The two halves are independent, covering
partially-registered registries. -/
theorem unregistered_query_raises_config_error (reg : Registry)
    (mgr : ConnectionManager) (realm : Option String) (now : Nat)
    (login password userdn : String) :
    (password ≠ "" →
      alookup reg (_registry_identifier "ldap_login_query" realm) = none →
      (Connector.authenticate reg mgr realm now login password).1 =
        .error
          (.config "ldap_set_login_query was not called during setup")) ∧
    (alookup reg (_registry_identifier "ldap_groups_query" realm) = none →
      (Connector.user_groups reg mgr realm now userdn).1 =
        .error
          (.config "set_ldap_groups_query was not called during setup")) := by
  constructor
  · intro hpw hlogin
    simp [Connector.authenticate, hpw, hlogin]
  · intro hgroups
    simp [Connector.user_groups, hgroups]

theorem unregistered_query_raises_config_error_witness :
    ("pw" : String) ≠ "" ∧
    alookup [("ldap_groups_query_r", qryNoCache)]
      (_registry_identifier "ldap_login_query" (some "r")) = none ∧
    alookup [("ldap_login_query_r", qryNoCache)]
      (_registry_identifier "ldap_groups_query" (some "r")) = none ∧
    (Connector.authenticate [("ldap_groups_query_r", qryNoCache)]
        mgrNoneResp (some "r") 0 "bob" "pw").1 =
      .error (.config "ldap_set_login_query was not called during setup") ∧
    (Connector.user_groups [("ldap_login_query_r", qryNoCache)]
        mgrNoneResp (some "r") 0 "cn=u").1 =
      .error (.config "set_ldap_groups_query was not called during setup") :=
  ⟨by decide, by decide, by decide,
   (unregistered_query_raises_config_error
     [("ldap_groups_query_r", qryNoCache)] mgrNoneResp (some "r") 0
     "bob" "pw" "cn=u").1 (by decide) (by decide),
   (unregistered_query_raises_config_error
     [("ldap_login_query_r", qryNoCache)] mgrNoneResp (some "r") 0
     "bob" "pw" "cn=u").2 (by decide)⟩

/-- C6: when the registered groups query's execution raises a
directory-protocol error, `user_groups` returns `None` instead of
propagating it; on success it returns the query's result sequence
unchanged. -/
theorem user_groups_swallows_ldap_error (reg : Registry)
    (mgr : ConnectionManager) (realm : Option String) (now : Nat)
    (userdn : String) (q : _LDAPQuery)
    (hq : alookup reg (_registry_identifier "ldap_groups_query" realm) =
      some q) :
    (∀ e : LDAPError,
      (q.execute mgr now [("userdn", escapeS userdn)]).1 = .error e →
      (Connector.user_groups reg mgr realm now userdn).1 = .ok none) ∧
    (∀ r : ResultSet,
      (q.execute mgr now [("userdn", escapeS userdn)]).1 = .ok r →
      (Connector.user_groups reg mgr realm now userdn).1 = .ok (some r)) := by
  constructor
  · intro e he
    simp [Connector.user_groups, hq, he]
  · intro r hr
    simp [Connector.user_groups, hq, hr]

theorem user_groups_swallows_ldap_error_witness :
    alookup [("ldap_groups_query", qryNoCache)]
      (_registry_identifier "ldap_groups_query" none) = some qryNoCache ∧
    ((∀ e : LDAPError,
      (qryNoCache.execute mgrSearchErr 0 [("userdn", escapeS "cn=u")]).1 =
        .error e →
      (Connector.user_groups [("ldap_groups_query", qryNoCache)]
        mgrSearchErr none 0 "cn=u").1 = .ok none) ∧
    (∀ r : ResultSet,
      (qryNoCache.execute mgrSearchErr 0 [("userdn", escapeS "cn=u")]).1 =
        .ok r →
      (Connector.user_groups [("ldap_groups_query", qryNoCache)]
        mgrSearchErr none 0 "cn=u").1 = .ok (some r))) :=
  ⟨by decide,
   user_groups_swallows_ldap_error [("ldap_groups_query", qryNoCache)]
     mgrSearchErr none 0 "cn=u" qryNoCache (by decide)⟩

/-- `query_cache` never records a direct-bind event. -/
theorem bindCall_not_in_query_cache_events (q : _LDAPQuery) (now : Nat)
    (key : SearchKey) (dn pw : String) :
    Event.bindCall dn pw ∉ (q.query_cache now key).2.2 := by
  unfold _LDAPQuery.query_cache
  dsimp only
  split <;> simp

/-- `execute` never records a direct-bind event: the pooled search path
never touches the credential-verification connection. -/
theorem bindCall_not_in_execute_events (q : _LDAPQuery)
    (mgr : ConnectionManager) (now : Nat) (kw : List (String × String))
    (dn pw : String) :
    Event.bindCall dn pw ∉ (q.execute mgr now kw).2.2 := by
  have hpre : Event.bindCall dn pw ∉
      (if q.cache_period ≠ 0 then q.query_cache now (q.cache_key kw)
       else (none, q, [])).2.2 := by
    split
    · exact bindCall_not_in_query_cache_events q now (q.cache_key kw) dn pw
    · simp
  unfold _LDAPQuery.execute
  dsimp only
  split
  · simp_all
  · split
    · simp_all
    · split
      · simp_all
      · split
        · simp_all
        · simp_all

/-- A backend whose search yields two matching records, both of which
would bind successfully with any password. -/
def mgrTwoMatch : ConnectionManager :=
  ⟨fun _ => .ok (some [⟨some "cn=a,dc=ex", []⟩, ⟨some "cn=b,dc=ex", []⟩]),
   fun _ _ => .ok (), fun _ => .ok ()⟩

/-- C2: with a non-empty password, a registered login query whose
execution returns zero or strictly more than one record makes
`authenticate` return `None` without ever attempting the
credential-verification bind — even when one of several matches would
bind successfully (the backend's bind behaviour is arbitrary here). -/
theorem authenticate_nonunique_no_match (reg : Registry)
    (mgr : ConnectionManager) (realm : Option String) (now : Nat)
    (login password : String) (q : _LDAPQuery) (rs : ResultSet)
    (hpw : password ≠ "")
    (hq : alookup reg (_registry_identifier "ldap_login_query" realm) =
      some q)
    (hex : (q.execute mgr now
      [("login", escapeS login), ("password", escapeS password)]).1 =
      .ok rs)
    (hnum : rs = [] ∨ 1 < rs.length) :
    (Connector.authenticate reg mgr realm now login password).1 =
      .ok none ∧
    ∀ dn pw, Event.bindCall dn pw ∉
      (Connector.authenticate reg mgr realm now login password).2.2 := by
  rcases hnum with h0 | h2
  · subst h0
    refine ⟨by simp [Connector.authenticate, hpw, hq, hex], ?_⟩
    intro dn pw
    simp only [Connector.authenticate, if_neg hpw, hq, hex]
    exact bindCall_not_in_execute_events q mgr now _ dn pw
  · match rs, h2 with
    | a :: b :: t, _ =>
      refine ⟨by simp [Connector.authenticate, hpw, hq, hex], ?_⟩
      intro dn pw
      simp only [Connector.authenticate, if_neg hpw, hq, hex]
      exact bindCall_not_in_execute_events q mgr now _ dn pw

theorem authenticate_nonunique_no_match_witness :
    ("pw" : String) ≠ "" ∧
    alookup [("ldap_login_query", qryNoCache)]
      (_registry_identifier "ldap_login_query" none) = some qryNoCache ∧
    (qryNoCache.execute mgrTwoMatch 0
      [("login", escapeS "bob"), ("password", escapeS "pw")]).1 =
      .ok [("cn=a,dc=ex", []), ("cn=b,dc=ex", [])] ∧
    (([("cn=a,dc=ex", []), ("cn=b,dc=ex", [])] : ResultSet) = [] ∨
      1 < ([("cn=a,dc=ex", []), ("cn=b,dc=ex", [])] : ResultSet).length) ∧
    ((Connector.authenticate [("ldap_login_query", qryNoCache)] mgrTwoMatch
        none 0 "bob" "pw").1 = .ok none ∧
      ∀ dn pw, Event.bindCall dn pw ∉
        (Connector.authenticate [("ldap_login_query", qryNoCache)]
          mgrTwoMatch none 0 "bob" "pw").2.2) :=
  ⟨by decide, by decide, by rfl, by decide,
   authenticate_nonunique_no_match [("ldap_login_query", qryNoCache)]
     mgrTwoMatch none 0 "bob" "pw" qryNoCache
     [("cn=a,dc=ex", []), ("cn=b,dc=ex", [])]
     (by decide) (by decide) (by rfl) (by decide)⟩

/-- C3: when the login query execution returns exactly one match
`(D, attrs)`, a failing direct bind as `D` (or a failure while releasing
the connection) is caught and mapped to `None`, never propagated; when
the bind succeeds the scoped connection is always released (the release
event is in the trace whatever the release outcome) and a fully
successful bind returns the matched `(dn, attrs)` pair. -/
theorem authenticate_single_match_bind (reg : Registry)
    (mgr : ConnectionManager) (realm : Option String) (now : Nat)
    (login password D : String) (a1 : Attrs) (q : _LDAPQuery)
    (hpw : password ≠ "")
    (hq : alookup reg (_registry_identifier "ldap_login_query" realm) =
      some q)
    (hex : (q.execute mgr now
      [("login", escapeS login), ("password", escapeS password)]).1 =
      .ok [(D, a1)]) :
    (∀ e : LDAPError, mgr.bindConn D password = .error e →
      (Connector.authenticate reg mgr realm now login password).1 =
        .ok none) ∧
    (mgr.bindConn D password = .ok () →
      Event.unbindCall D ∈
        (Connector.authenticate reg mgr realm now login password).2.2 ∧
      (∀ e : LDAPError, mgr.unbindConn D = .error e →
        (Connector.authenticate reg mgr realm now login password).1 =
          .ok none) ∧
      (mgr.unbindConn D = .ok () →
        (Connector.authenticate reg mgr realm now login password).1 =
          .ok (some (D, a1)))) := by
  refine ⟨?_, ?_⟩
  · intro e he
    simp [Connector.authenticate, hpw, hq, hex, he]
  · intro hb
    refine ⟨?_, ?_, ?_⟩
    · cases hu : mgr.unbindConn D <;>
        simp [Connector.authenticate, hpw, hq, hex, hb, hu]
    · intro e hu
      simp [Connector.authenticate, hpw, hq, hex, hb, hu]
    · intro hu
      simp [Connector.authenticate, hpw, hq, hex, hb, hu]

theorem authenticate_single_match_bind_witness :
    ("pw" : String) ≠ "" ∧
    alookup [("ldap_login_query", qryNoCache)]
      (_registry_identifier "ldap_login_query" none) = some qryNoCache ∧
    (qryNoCache.execute mgrBadBind 0
      [("login", escapeS "bob"), ("password", escapeS "pw")]).1 =
      .ok [("cn=bob,dc=ex", [("cn", ["bob"])])] ∧
    ((∀ e : LDAPError,
        mgrBadBind.bindConn "cn=bob,dc=ex" "pw" = .error e →
        (Connector.authenticate [("ldap_login_query", qryNoCache)]
          mgrBadBind none 0 "bob" "pw").1 = .ok none) ∧
      (mgrBadBind.bindConn "cn=bob,dc=ex" "pw" = .ok () →
        Event.unbindCall "cn=bob,dc=ex" ∈
          (Connector.authenticate [("ldap_login_query", qryNoCache)]
            mgrBadBind none 0 "bob" "pw").2.2 ∧
        (∀ e : LDAPError,
          mgrBadBind.unbindConn "cn=bob,dc=ex" = .error e →
          (Connector.authenticate [("ldap_login_query", qryNoCache)]
            mgrBadBind none 0 "bob" "pw").1 = .ok none) ∧
        (mgrBadBind.unbindConn "cn=bob,dc=ex" = .ok () →
          (Connector.authenticate [("ldap_login_query", qryNoCache)]
            mgrBadBind none 0 "bob" "pw").1 =
            .ok (some ("cn=bob,dc=ex", [("cn", ["bob"])]))))) :=
  ⟨by decide, by decide, by rfl,
   authenticate_single_match_bind [("ldap_login_query", qryNoCache)]
     mgrBadBind none 0 "bob" "pw" "cn=bob,dc=ex" [("cn", ["bob"])]
     qryNoCache (by decide) (by decide) (by rfl)⟩

/-- A lookup in an empty cache dict always misses, flush or no flush. -/
theorem query_cache_empty_miss (q : _LDAPQuery) (now : Nat)
    (key : SearchKey) (h : q.cache = []) :
    (q.query_cache now key).1 = none := by
  unfold _LDAPQuery.query_cache
  dsimp only
  split <;> simp [h, alookup]

/-- A backend whose search yields three records, the middle one lacking
a `'dn'` key. -/
def mgrDropTest : ConnectionManager :=
  ⟨fun _ => .ok (some
    [⟨some "cn=g1,dc=ex", [("cn", ["g1"])]⟩, ⟨none, [("x", [])]⟩,
     ⟨some "cn=g2,dc=ex", []⟩]),
   fun _ _ => .ok (), fun _ => .ok ()⟩

/-- C7: on a cache miss (empty cache here), `execute` turns each record
of the low-level response that carries a distinguished name into a
`(dn, attributes)` pair, preserving the server order and silently
dropping the others (filter-then-map); a `None` low-level response
yields `[]`, not an error. -/
theorem execute_maps_low_level_response (q : _LDAPQuery)
    (mgr : ConnectionManager) (now : Nat) (kw : List (String × String))
    (h0 : q.cache = []) :
    (∀ records : List Record,
      mgr.searchResp (q.cache_key kw) = .ok (some records) →
      (q.execute mgr now kw).1 = .ok
        ((records.filter (fun r => r.dn.isSome)).map
          (fun r => (r.dn.getD "", r.attributes)))) ∧
    (mgr.searchResp (q.cache_key kw) = .ok none →
      (q.execute mgr now kw).1 = .ok []) := by
  have hpre : (if q.cache_period ≠ 0 then
      q.query_cache now (q.cache_key kw) else (none, q, [])).1 = none := by
    split
    · exact query_cache_empty_miss q now _ h0
    · rfl
  constructor
  · intro records hresp
    unfold _LDAPQuery.execute
    dsimp only
    rw [hpre, hresp]
    split
    · simp_all
    · dsimp only
      split <;> simp [filterMap_dn_eq_filter_map]
  · intro hresp
    unfold _LDAPQuery.execute
    dsimp only
    rw [hpre, hresp]

theorem execute_maps_low_level_response_witness :
    qryNoCache.cache = [] ∧
    ((∀ records : List Record,
      mgrDropTest.searchResp (qryNoCache.cache_key [("login", "u")]) =
        .ok (some records) →
      (qryNoCache.execute mgrDropTest 0 [("login", "u")]).1 = .ok
        ((records.filter (fun r => r.dn.isSome)).map
          (fun r => (r.dn.getD "", r.attributes)))) ∧
    (mgrDropTest.searchResp (qryNoCache.cache_key [("login", "u")]) =
        .ok none →
      (qryNoCache.execute mgrDropTest 0 [("login", "u")]).1 = .ok [])) :=
  ⟨by decide,
   execute_maps_low_level_response qryNoCache mgrDropTest 0
     [("login", "u")] (by decide)⟩

/-- C10: with `cache_period = 0` the cache is neither read nor written:
the trace of `execute` is exactly one backend search, the query state
(cache and last timeslice included) is unchanged, and `_timeslice` is
never evaluated, so its division/modulo by a zero period is unreachable
from `execute`. -/
theorem execute_period_zero_bypasses_cache (q : _LDAPQuery)
    (mgr : ConnectionManager) (now : Nat) (kw : List (String × String))
    (h : q.cache_period = 0) :
    (q.execute mgr now kw).2.2 = [.searchCall (q.cache_key kw)] ∧
    (q.execute mgr now kw).2.1 = q ∧
    ∀ p, Event.timeslice p ∉ (q.execute mgr now kw).2.2 := by
  have hif : (q.cache_period ≠ 0) = False := by simp [h]
  unfold _LDAPQuery.execute
  dsimp only
  simp only [hif, if_false]
  cases hr : mgr.searchResp (q.cache_key kw) with
  | error e => simp
  | ok resp =>
    cases resp with
    | none => simp
    | some records => simp

theorem execute_period_zero_bypasses_cache_witness :
    qryNoCache.cache_period = 0 ∧
    ((qryNoCache.execute mgrOneMatch 7 [("login", "u")]).2.2 =
      [.searchCall (qryNoCache.cache_key [("login", "u")])] ∧
    (qryNoCache.execute mgrOneMatch 7 [("login", "u")]).2.1 = qryNoCache ∧
    ∀ p, Event.timeslice p ∉
      (qryNoCache.execute mgrOneMatch 7 [("login", "u")]).2.2) :=
  ⟨by decide,
   execute_period_zero_bypasses_cache qryNoCache mgrOneMatch 7
     [("login", "u")] (by decide)⟩

/-- The five characters the sanitizer must not let through raw. -/
def specials : List Char := ['*', '(', ')', '\\', '\x00']

/-- `RawFree l` holds when `l` parses as a sequence of non-special
characters and complete escape sequences `\2A`, `\28`, `\29`, `\5C`,
`\00`: no raw occurrence of a special character remains (every special
character occurrence is the backslash opening one of the five escape
codes). -/
inductive RawFree : List Char → Prop
  | nil : RawFree []
  | plain (c : Char) (rest : List Char) (hc : c ∉ specials)
      (h : RawFree rest) : RawFree (c :: rest)
  | esc (a b : Char) (rest : List Char)
      (hab : (a, b) ∈
        [('2', 'A'), ('2', '8'), ('2', '9'), ('5', 'C'), ('0', '0')])
      (h : RawFree rest) : RawFree ('\\' :: a :: b :: rest)

/-- A non-special character passes through the table unchanged. -/
theorem escTok_plain (c : Char) (hc : c ∉ specials) : escTok c = [c] := by
  simp only [specials, List.mem_cons, List.mem_singleton, not_or] at hc
  obtain ⟨h1, h2, h3, h4, h5⟩ := hc
  simp [escTok, alookup, _escape_for_search, h1, h2, h3, h4, h5]

theorem rawFree_escTok_append (c : Char) (rest : List Char)
    (h : RawFree rest) : RawFree (escTok c ++ rest) := by
  by_cases hc : c ∈ specials
  · simp only [specials, List.mem_cons, List.not_mem_nil, or_false] at hc
    rcases hc with rfl | rfl | rfl | rfl | rfl
    · rw [show escTok '*' = ['\\', '2', 'A'] by decide]
      exact RawFree.esc '2' 'A' rest (by simp) h
    · rw [show escTok '(' = ['\\', '2', '8'] by decide]
      exact RawFree.esc '2' '8' rest (by simp) h
    · rw [show escTok ')' = ['\\', '2', '9'] by decide]
      exact RawFree.esc '2' '9' rest (by simp) h
    · rw [show escTok '\\' = ['\\', '5', 'C'] by decide]
      exact RawFree.esc '5' 'C' rest (by simp) h
    · rw [show escTok '\x00' = ['\\', '0', '0'] by decide]
      exact RawFree.esc '0' '0' rest (by simp) h
  · rw [escTok_plain c hc]
    exact RawFree.plain c rest hc h

/-- C4: on text input, `escape_for_search` replaces every character by
its table entry (`*`,`(`,`)`,`\`,NUL mapping to `\2A`,`\28`,`\29`,
`\5C`,`\00`, everything else passing through unchanged), so that no raw
occurrence of the five special characters remains in the output; empty
input is returned unchanged. -/
theorem escape_text_no_raw_specials (s : String) :
    escape_for_search (.txt s) =
      .txt (String.mk (List.flatten (s.data.map escTok))) ∧
    RawFree (List.flatten (s.data.map escTok)) ∧
    escTok '*' = ['\\', '2', 'A'] ∧
    escTok '(' = ['\\', '2', '8'] ∧
    escTok ')' = ['\\', '2', '9'] ∧
    escTok '\\' = ['\\', '5', 'C'] ∧
    escTok '\x00' = ['\\', '0', '0'] ∧
    (∀ c : Char, c ∉ specials → escTok c = [c]) ∧
    escape_for_search (.txt "") = .txt "" := by
  have hraw : ∀ l : List Char, RawFree (List.flatten (l.map escTok)) := by
    intro l
    induction l with
    | nil => exact RawFree.nil
    | cons c cs ih => simpa using rawFree_escTok_append c _ ih
  refine ⟨?_, hraw s.data, by decide, by decide,
    by decide, by decide, by decide,
    fun c hc => escTok_plain c hc, by rfl⟩
  by_cases hs : s = ""
  · subst hs; rfl
  · simp [escape_for_search, hs]

theorem escape_text_no_raw_specials_witness :
    escape_for_search (.txt "a*b") =
      .txt (String.mk (List.flatten ("a*b".data.map escTok))) ∧
    RawFree (List.flatten ("a*b".data.map escTok)) ∧
    escTok '*' = ['\\', '2', 'A'] ∧
    escTok '(' = ['\\', '2', '8'] ∧
    escTok ')' = ['\\', '2', '9'] ∧
    escTok '\\' = ['\\', '5', 'C'] ∧
    escTok '\x00' = ['\\', '0', '0'] ∧
    (∀ c : Char, c ∉ specials → escTok c = [c]) ∧
    escape_for_search (.txt "") = .txt "" :=
  escape_text_no_raw_specials "a*b"

/-- The sixteen lowercase hex digits `'%x'` can produce. -/
def lowHex : List Char := "0123456789abcdef".data

/-- Value of a lowercase hex digit, `none` for any other character. -/
def hexVal (c : Char) : Option Nat :=
  if 48 ≤ c.toNat ∧ c.toNat ≤ 57 then some (c.toNat - 48)
  else if 97 ≤ c.toNat ∧ c.toNat ≤ 102 then some (c.toNat - 87)
  else none

/-- Decode a string of `\xx` two-hex-digit escapes back to bytes. -/
def hexUnescape : List Char → Option (List Nat)
  | [] => some []
  | '\\' :: hd :: ld :: rest =>
    match hexVal hd, hexVal ld, hexUnescape rest with
    | some hv, some lv, some tail => some ((hv * 16 + lv) :: tail)
    | _, _, _ => none
  | _ => none

/-- `HexSeq l` holds when `l` consists solely of complete `\xx` escape
sequences, backslash followed by two lowercase hex digits. -/
inductive HexSeq : List Char → Prop
  | nil : HexSeq []
  | cons (hd ld : Char) (rest : List Char) (hh : hd ∈ lowHex)
      (hl : ld ∈ lowHex) (ht : HexSeq rest) :
      HexSeq ('\\' :: hd :: ld :: rest)

theorem hexDigit_mem_lowHex : ∀ x : Nat, x < 16 → hexDigit x ∈ lowHex := by
  decide

theorem hexVal_hexDigit : ∀ x : Nat, x < 16 → hexVal (hexDigit x) = some x := by
  decide

theorem hexSeq_flatten (bs : List Nat) (hb : ∀ b ∈ bs, b < 256) :
    HexSeq (List.flatten (bs.map hexTok)) := by
  induction bs with
  | nil => exact HexSeq.nil
  | cons b rest ih =>
    have hb1 : b < 256 := hb b (by simp)
    have hbr : ∀ x ∈ rest, x < 256 := fun x hx => hb x (by simp [hx])
    have h16a : b / 16 < 16 := by omega
    have h16b : b % 16 < 16 := by omega
    simp only [List.map_cons, List.flatten_cons, hexTok, List.cons_append,
      List.nil_append]
    exact HexSeq.cons _ _ _ (hexDigit_mem_lowHex _ h16a)
      (hexDigit_mem_lowHex _ h16b) (ih hbr)

theorem hexUnescape_flatten (bs : List Nat) (hb : ∀ b ∈ bs, b < 256) :
    hexUnescape (List.flatten (bs.map hexTok)) = some bs := by
  induction bs with
  | nil => rfl
  | cons b rest ih =>
    have hb1 : b < 256 := hb b (by simp)
    have hbr : ∀ x ∈ rest, x < 256 := fun x hx => hb x (by simp [hx])
    have h16a : b / 16 < 16 := by omega
    have h16b : b % 16 < 16 := by omega
    have e1 := hexVal_hexDigit (b / 16) h16a
    have e2 := hexVal_hexDigit (b % 16) h16b
    have eb : b / 16 * 16 + b % 16 = b := by omega
    have hflat : (List.map hexTok (b :: rest)).flatten =
        '\\' :: hexDigit (b / 16) :: hexDigit (b % 16) ::
          (List.map hexTok rest).flatten := rfl
    rw [hflat, hexUnescape, e1, e2, ih hbr]
    show some ((b / 16 * 16 + b % 16) :: rest) = some (b :: rest)
    rw [eb]

/-- C9: a byte sequence that fails UTF-8 decoding is escaped as one
two-hex-digit escape per byte in order (backslash + lowercase hex only),
with no further character-level escaping, and hex-decoding the
concatenation reconstructs the bytes exactly. -/
theorem escape_undecodable_bytes_hex_roundtrip (bs : List Nat)
    (hb : ∀ b ∈ bs, b < 256) (hdec : utf8Decode bs = none) :
    escape_for_search (.bin bs) =
      .txt (String.mk (List.flatten (bs.map hexTok))) ∧
    HexSeq (List.flatten (bs.map hexTok)) ∧
    hexUnescape (List.flatten (bs.map hexTok)) = some bs := by
  have hne : bs ≠ [] := by
    rintro rfl
    exact (by decide : utf8Decode ([] : List Nat) ≠ none) hdec
  refine ⟨?_, hexSeq_flatten bs hb, hexUnescape_flatten bs hb⟩
  simp only [escape_for_search]
  rw [if_neg hne, hdec]

theorem escape_undecodable_bytes_hex_roundtrip_witness :
    (∀ b ∈ [255, 65], b < 256) ∧ utf8Decode [255, 65] = none ∧
    (escape_for_search (.bin [255, 65]) =
      .txt (String.mk (List.flatten ([255, 65].map hexTok))) ∧
    HexSeq (List.flatten ([255, 65].map hexTok)) ∧
    hexUnescape (List.flatten ([255, 65].map hexTok)) = some [255, 65]) :=
  ⟨by decide, by decide,
   escape_undecodable_bytes_hex_roundtrip [255, 65] (by decide) (by decide)⟩

/-- The cache key depends only on the templates, which `execute` never
changes. -/
theorem cache_key_congr (q1 q2 : _LDAPQuery) (kw : List (String × String))
    (h1 : q1.base_dn = q2.base_dn) (h2 : q1.filter_tmpl = q2.filter_tmpl) :
    q1.cache_key kw = q2.cache_key kw := by
  unfold _LDAPQuery.cache_key
  rw [h1, h2]

/-- Closed form of `query_cache` when the current timeslice is at least
the recorded one: the whole mapping is dumped exactly when the timeslice
is strictly newer, and the recorded timeslice becomes the current one. -/
theorem query_cache_cases (q : _LDAPQuery) (t : Nat) (key : SearchKey)
    (hlast : q.last_timeslice ≤ _timeslice q.cache_period t) :
    q.query_cache t key =
      (alookup (if q.last_timeslice < _timeslice q.cache_period t then []
         else q.cache) key,
       { q with
          cache := if q.last_timeslice < _timeslice q.cache_period t then []
            else q.cache,
          last_timeslice := _timeslice q.cache_period t },
       if q.last_timeslice < _timeslice q.cache_period t then
         [.timeslice q.cache_period, .cacheFlush]
       else [.timeslice q.cache_period]) := by
  unfold _LDAPQuery.query_cache
  dsimp only
  by_cases h : q.last_timeslice < _timeslice q.cache_period t
  · simp [h]
  · have heq : q.last_timeslice = _timeslice q.cache_period t :=
      Nat.le_antisymm hlast (Nat.not_lt.mp h)
    simp [h, ← heq]

/-- One `execute` on a cache miss with a list response, when the current
timeslice is at least the recorded one: the mapped result is returned
and stored under the key, the templates and period are unchanged, and
the recorded timeslice becomes the current one. -/
theorem execute_miss_store (q : _LDAPQuery) (mgr : ConnectionManager)
    (t : Nat) (kw : List (String × String)) (records : List Record)
    (hP : q.cache_period ≠ 0)
    (hlast : q.last_timeslice ≤ _timeslice q.cache_period t)
    (hmiss : alookup q.cache (q.cache_key kw) = none)
    (hresp : mgr.searchResp (q.cache_key kw) = .ok (some records)) :
    (q.execute mgr t kw).1 = .ok (records.filterMap (fun r =>
      match r.dn with
      | some d => some (d, r.attributes)
      | none => none)) ∧
    (q.execute mgr t kw).2.1.base_dn = q.base_dn ∧
    (q.execute mgr t kw).2.1.filter_tmpl = q.filter_tmpl ∧
    (q.execute mgr t kw).2.1.cache_period = q.cache_period ∧
    (q.execute mgr t kw).2.1.last_timeslice = _timeslice q.cache_period t ∧
    alookup (q.execute mgr t kw).2.1.cache (q.cache_key kw) =
      some (records.filterMap (fun r =>
        match r.dn with
        | some d => some (d, r.attributes)
        | none => none)) := by
  have hm : alookup
      (if q.last_timeslice < _timeslice q.cache_period t then []
       else q.cache) (q.cache_key kw) = none := by
    split
    · rfl
    · exact hmiss
  unfold _LDAPQuery.execute
  dsimp only
  rw [if_pos hP, query_cache_cases q t (q.cache_key kw) hlast]
  dsimp only
  rw [hm, hresp]
  dsimp only
  rw [if_pos hP]
  exact ⟨rfl, rfl, rfl, rfl, rfl, alookup_ainsert_self _ _ _⟩

/-- One `execute` that hits the cache (current timeslice not newer than
the recorded one, key present): the cached value is returned, the state
is untouched, and the trace shows no backend search. -/
theorem execute_hit (q : _LDAPQuery) (mgr : ConnectionManager) (t : Nat)
    (kw : List (String × String)) (res : ResultSet)
    (hP : q.cache_period ≠ 0)
    (hts : _timeslice q.cache_period t ≤ q.last_timeslice)
    (hhit : alookup q.cache (q.cache_key kw) = some res) :
    q.execute mgr t kw =
      (.ok res, q,
       [.timeslice q.cache_period, .cacheHit (q.cache_key kw)]) := by
  unfold _LDAPQuery.execute _LDAPQuery.query_cache
  dsimp only
  rw [if_pos hP, if_neg (Nat.not_lt.mpr hts), hhit]
  rfl

/-- One `execute` in a strictly newer timeslice with a list response:
the whole mapping is dumped (the store then repopulates exactly one
entry), the backend is searched, and the recorded timeslice becomes the
current one. -/
theorem execute_flush_miss (q : _LDAPQuery) (mgr : ConnectionManager)
    (t : Nat) (kw : List (String × String)) (records : List Record)
    (hP : q.cache_period ≠ 0)
    (hlt : q.last_timeslice < _timeslice q.cache_period t)
    (hresp : mgr.searchResp (q.cache_key kw) = .ok (some records)) :
    (q.execute mgr t kw).2.2 =
      [.timeslice q.cache_period, .cacheFlush,
       .searchCall (q.cache_key kw), .cacheStore (q.cache_key kw)] ∧
    (q.execute mgr t kw).2.1.last_timeslice = _timeslice q.cache_period t ∧
    (q.execute mgr t kw).2.1.cache =
      [(q.cache_key kw, records.filterMap (fun r =>
        match r.dn with
        | some d => some (d, r.attributes)
        | none => none))] := by
  unfold _LDAPQuery.execute
  dsimp only
  rw [if_pos hP, query_cache_cases q t (q.cache_key kw) (Nat.le_of_lt hlt)]
  simp only [if_pos hlt]
  rw [show alookup ([] : List (SearchKey × ResultSet)) (q.cache_key kw) =
    none from rfl, hresp]
  dsimp only
  rw [if_pos hP]
  exact ⟨rfl, rfl, rfl⟩

/-- A registered query with a 10-second cache period, for the C5
witness. -/
def qryCache10 : _LDAPQuery :=
  mkLDAPQuery "dc=ex" "(cn=%(login)s)" 0 [] 10

/-- C5: with a nonzero period, every lookup computes the current bucket
(`timeslice` event); after an `execute` at `t1` that misses and stores,
a second `execute` with the same key in the same bucket returns the same
cached value with no backend call, while an `execute` in a strictly
later bucket dumps the whole mapping at once (`cacheFlush`), records the
new bucket, and always misses (backend called) even immediately after
the store. -/
theorem query_cache_same_bucket_hit_later_bucket_miss (q : _LDAPQuery)
    (mgr : ConnectionManager) (kw : List (String × String))
    (t1 t2 t3 : Nat) (records : List Record)
    (hP : q.cache_period ≠ 0)
    (hlast : q.last_timeslice ≤ _timeslice q.cache_period t1)
    (hmiss : alookup q.cache (q.cache_key kw) = none)
    (hresp : mgr.searchResp (q.cache_key kw) = .ok (some records))
    (ht2 : _timeslice q.cache_period t2 = _timeslice q.cache_period t1)
    (ht3 : _timeslice q.cache_period t1 < _timeslice q.cache_period t3) :
    ((q.execute mgr t1 kw).2.1.execute mgr t2 kw).1 =
      (q.execute mgr t1 kw).1 ∧
    (∀ k, Event.searchCall k ∉
      ((q.execute mgr t1 kw).2.1.execute mgr t2 kw).2.2) ∧
    Event.timeslice q.cache_period ∈
      ((q.execute mgr t1 kw).2.1.execute mgr t2 kw).2.2 ∧
    Event.searchCall (q.cache_key kw) ∈
      ((q.execute mgr t1 kw).2.1.execute mgr t3 kw).2.2 ∧
    Event.cacheFlush ∈
      ((q.execute mgr t1 kw).2.1.execute mgr t3 kw).2.2 ∧
    ((q.execute mgr t1 kw).2.1.execute mgr t3 kw).2.1.last_timeslice =
      _timeslice q.cache_period t3 := by
  obtain ⟨hr1, hbase, hfilt, hper, hlastts, hcache⟩ :=
    execute_miss_store q mgr t1 kw records hP hlast hmiss hresp
  have hkey : (q.execute mgr t1 kw).2.1.cache_key kw = q.cache_key kw :=
    cache_key_congr _ _ kw hbase hfilt
  have hP1 : (q.execute mgr t1 kw).2.1.cache_period ≠ 0 := by
    rw [hper]; exact hP
  have hts2 : _timeslice (q.execute mgr t1 kw).2.1.cache_period t2 ≤
      (q.execute mgr t1 kw).2.1.last_timeslice := by
    rw [hper, hlastts, ht2]
  have hhit1 : alookup (q.execute mgr t1 kw).2.1.cache
      ((q.execute mgr t1 kw).2.1.cache_key kw) =
      some (records.filterMap (fun r =>
        match r.dn with
        | some d => some (d, r.attributes)
        | none => none)) := by
    rw [hkey]; exact hcache
  have h2 := execute_hit (q.execute mgr t1 kw).2.1 mgr t2 kw _ hP1 hts2 hhit1
  rw [hkey] at h2
  have hlt3 : (q.execute mgr t1 kw).2.1.last_timeslice <
      _timeslice (q.execute mgr t1 kw).2.1.cache_period t3 := by
    rw [hper, hlastts]; exact ht3
  have hresp1 : mgr.searchResp ((q.execute mgr t1 kw).2.1.cache_key kw) =
      .ok (some records) := by
    rw [hkey]; exact hresp
  obtain ⟨htr3, hts3, _⟩ :=
    execute_flush_miss (q.execute mgr t1 kw).2.1 mgr t3 kw records hP1
      hlt3 hresp1
  rw [hkey] at htr3
  refine ⟨?_, ?_, ?_, ?_, ?_, ?_⟩
  · rw [h2, hr1]
  · intro k
    rw [h2]
    simp
  · rw [h2, hper]
    simp
  · rw [htr3]
    simp
  · rw [htr3]
    simp
  · rw [hts3, hper]

theorem query_cache_same_bucket_hit_later_bucket_miss_witness :
    qryCache10.cache_period ≠ 0 ∧
    qryCache10.last_timeslice ≤ _timeslice qryCache10.cache_period 5 ∧
    alookup qryCache10.cache (qryCache10.cache_key [("login", "u")]) =
      none ∧
    mgrOneMatch.searchResp (qryCache10.cache_key [("login", "u")]) =
      .ok (some [⟨some "cn=bob,dc=ex", [("cn", ["bob"])]⟩]) ∧
    _timeslice qryCache10.cache_period 9 =
      _timeslice qryCache10.cache_period 5 ∧
    _timeslice qryCache10.cache_period 5 <
      _timeslice qryCache10.cache_period 10 ∧
    (((qryCache10.execute mgrOneMatch 5 [("login", "u")]).2.1.execute
        mgrOneMatch 9 [("login", "u")]).1 =
      (qryCache10.execute mgrOneMatch 5 [("login", "u")]).1 ∧
    (∀ k, Event.searchCall k ∉
      ((qryCache10.execute mgrOneMatch 5 [("login", "u")]).2.1.execute
        mgrOneMatch 9 [("login", "u")]).2.2) ∧
    Event.timeslice qryCache10.cache_period ∈
      ((qryCache10.execute mgrOneMatch 5 [("login", "u")]).2.1.execute
        mgrOneMatch 9 [("login", "u")]).2.2 ∧
    Event.searchCall (qryCache10.cache_key [("login", "u")]) ∈
      ((qryCache10.execute mgrOneMatch 5 [("login", "u")]).2.1.execute
        mgrOneMatch 10 [("login", "u")]).2.2 ∧
    Event.cacheFlush ∈
      ((qryCache10.execute mgrOneMatch 5 [("login", "u")]).2.1.execute
        mgrOneMatch 10 [("login", "u")]).2.2 ∧
    ((qryCache10.execute mgrOneMatch 5 [("login", "u")]).2.1.execute
        mgrOneMatch 10 [("login", "u")]).2.1.last_timeslice =
      _timeslice qryCache10.cache_period 10) :=
  ⟨by decide, by decide, by decide, by rfl, by decide, by decide,
   query_cache_same_bucket_hit_later_bucket_miss qryCache10 mgrOneMatch
     [("login", "u")] 5 9 10 [⟨some "cn=bob,dc=ex", [("cn", ["bob"])]⟩]
     (by decide) (by decide) (by decide) (by rfl) (by decide) (by decide)⟩
